import Mathlib

/-!
Shallow embedding of `src/disk.rs` from the `shelly` repository: the `PageId`
identifier type and the `DiskManager` page store.

Modelling conventions:
* `u64` values are `Nat` with explicit reduction `% 2 ^ 64` wherever the Rust
  code performs u64 arithmetic that can overflow (release-mode wrapping
  semantics).
* The backing heap file is a `List Nat` of bytes (each intended `< 256`).
  The file cursor is not part of the observable state: every operation seeks
  to an absolute offset before touching the file, so the cursor never carries
  information between calls.
* Fallible operations return `Except IoErrorKind`; the only error that the
  logic of `disk.rs` itself can produce (as opposed to OS-level failures,
  which are outside the embedding) is the `UnexpectedEof` of `read_exact`.
* A Rust panic (the `unwrap` in `From<&[u8]> for PageId`) is modelled as
  `Option.none`.
-/

namespace Shelly

/-- `pub const PAGE_SIZE: usize = 4096;` (disk.rs line 7). -/
def PAGE_SIZE : Nat := 4096

/-- Number of distinct `u64` values, `2 ^ 64`. -/
def U64_SIZE : Nat := 18446744073709551616

/-- `u64::MAX`, i.e. `2 ^ 64 - 1`. -/
def u64_MAX : Nat := 18446744073709551615

/-- `pub struct PageId(pub u64);` — the raw value is a `u64`, here a `Nat`. -/
structure PageId where
  raw : Nat
deriving DecidableEq

/-- `pub const INVALID_PAGE_ID: PageId = PageId(u64::MAX);` (disk.rs line 12). -/
def PageId.INVALID_PAGE_ID : PageId := ⟨u64_MAX⟩

/-- `PageId::valid` (disk.rs lines 14-20): `None` for the sentinel, `Some self`
otherwise. -/
def PageId.valid (p : PageId) : Option PageId :=
  if p = PageId.INVALID_PAGE_ID then none else some p

/-- `PageId::to_u64` (disk.rs lines 22-24): the raw numeric value. -/
def PageId.to_u64 (p : PageId) : Nat := p.raw

/-- `impl Default for PageId` (disk.rs lines 27-31): the default is the
sentinel. -/
def PageId.default : PageId := PageId.INVALID_PAGE_ID

/-- `impl From<Option<PageId>> for PageId` (disk.rs lines 33-37):
`page_id.unwrap_or_default()`. -/
def PageId.fromOption : Option PageId → PageId
  | some p => p
  | none => PageId.default

/-- `u64::from_ne_bytes` on a little-endian platform: byte 0 is least
significant. (The round-trip properties below hold for either endianness;
little-endian is fixed as the native order of the reference platform.) -/
def u64_from_ne_bytes : List Nat → Nat
  | [] => 0
  | b :: bs => b + 256 * u64_from_ne_bytes bs

/-- `u64::to_ne_bytes` restricted to `k` output bytes (little-endian, matching
`u64_from_ne_bytes`); for a `u64` the byte count is 8. -/
def u64_to_ne_bytes : Nat → Nat → List Nat
  | 0, _ => []
  | k + 1, n => n % 256 :: u64_to_ne_bytes k (n / 256)

/-- `impl From<&[u8]> for PageId` (disk.rs lines 39-44):
`bytes.try_into().unwrap()` succeeds exactly when the slice has length 8
(`none` models the panic of `unwrap`), then `u64::from_ne_bytes`. -/
def PageId.from_bytes (bytes : List Nat) : Option PageId :=
  if bytes.length = 8 then some ⟨u64_from_ne_bytes bytes⟩ else none

/-- `pub struct DiskManager { heap_file: File, next_page_id: u64 }`
(disk.rs lines 46-49). The file is its byte contents. -/
structure DiskManager where
  heap_file : List Nat
  next_page_id : Nat
deriving DecidableEq

/-- `DiskManager::new` (disk.rs lines 52-59): `next_page_id` is the file
length divided (truncating) by `PAGE_SIZE`. The only failure of the Rust
function is an OS-level `metadata()` error, outside the embedding; the
state produced on success is modelled. `DiskManager::open` opens or creates
the file at a path and delegates to `new`, so it produces the same state. -/
def DiskManager.new (heap_file : List Nat) : DiskManager :=
  { heap_file := heap_file, next_page_id := heap_file.length / PAGE_SIZE }

/-- I/O error kinds producible by the logic of `disk.rs` itself:
`read_exact` returns `ErrorKind::UnexpectedEof` when the file ends before
the buffer is filled. -/
inductive IoErrorKind where
  | unexpectedEof
deriving DecidableEq

/-- The offset computation shared by `read_page_data` and `write_page_data`
(disk.rs lines 71 and 77): `let offset = PAGE_SIZE as u64 * page_id.to_u64();`
— an unchecked u64 multiplication, hence the explicit wrap `% U64_SIZE`. -/
def page_offset (page_id : PageId) : Nat :=
  (PAGE_SIZE * page_id.to_u64) % U64_SIZE

/-- Effect on file contents of `write_all data` after seeking to `offset`:
`write_all` on an empty buffer performs no write at all (its loop body never
runs), leaving the file unchanged even when the offset lies past the end of
file. Otherwise bytes before the offset are kept, a gap past the old end of
file reads back as zero bytes (sparse hole), `data` overwrites
`data.length` bytes at the offset, and bytes after the written range are
kept. -/
def writeAt (file : List Nat) (offset : Nat) (data : List Nat) : List Nat :=
  if data.isEmpty then file
  else
    file.take offset ++ List.replicate (offset - file.length) 0 ++ data
      ++ file.drop (offset + data.length)

/-- `DiskManager::read_page_data` (disk.rs lines 70-74): seek to
`page_offset` (seeking past the end of file succeeds), then `read_exact`
into a buffer of length `len`. `read_exact` on an empty buffer returns `Ok`
without reading anything; otherwise it succeeds, returning the bytes read
and the (unchanged) manager, exactly when the file holds `len` bytes at the
offset, and fails with `UnexpectedEof` when the file ends first. -/
def DiskManager.read_page_data (d : DiskManager) (page_id : PageId) (len : Nat) :
    Except IoErrorKind (List Nat × DiskManager) :=
  let offset := page_offset page_id
  if len = 0 ∨ offset + len ≤ d.heap_file.length then
    Except.ok ((d.heap_file.drop offset).take len, d)
  else
    Except.error IoErrorKind.unexpectedEof

/-- `DiskManager::write_page_data` (disk.rs lines 76-80): seek to
`page_offset`, then `write_all data`. The only failures of the Rust function
are OS-level write errors, outside the embedding; on success the file
contents are updated by `writeAt` and `next_page_id` is untouched. -/
def DiskManager.write_page_data (d : DiskManager) (page_id : PageId) (data : List Nat) :
    Except IoErrorKind DiskManager :=
  let offset := page_offset page_id
  Except.ok { d with heap_file := writeAt d.heap_file offset data }

/-- `DiskManager::allocate_page` (disk.rs lines 82-86): return the current
`next_page_id` as a `PageId`, then `self.next_page_id += 1` — a u64
increment, hence the explicit wrap `% U64_SIZE`. Infallible and pure in
memory: the file is untouched. -/
def DiskManager.allocate_page (d : DiskManager) : PageId × DiskManager :=
  let page_id := d.next_page_id
  (⟨page_id⟩, { d with next_page_id := (page_id + 1) % U64_SIZE })

/-- `DiskManager::sync` (disk.rs lines 88-91): `flush` then `sync_all`.
Neither changes the file contents nor `next_page_id`; their only failures
are OS-level, outside the embedding. -/
def DiskManager.sync (d : DiskManager) : Except IoErrorKind DiskManager :=
  Except.ok d

/-- State after `k` successive `allocate_page` calls. -/
def allocN : Nat → DiskManager → DiskManager
  | 0, d => d
  | k + 1, d => allocN k (d.allocate_page).2

/-- The ids returned by `k` successive `allocate_page` calls, in call order. -/
def allocIds : Nat → DiskManager → List PageId
  | 0, _ => []
  | k + 1, d => (d.allocate_page).1 :: allocIds k (d.allocate_page).2

example : allocIds 3 (DiskManager.new []) = [⟨0⟩, ⟨1⟩, ⟨2⟩] := by decide

example : (DiskManager.new (List.replicate 4100 7)).next_page_id = 1 := by
  show (List.replicate 4100 7).length / PAGE_SIZE = 1
  rw [List.length_replicate]
  decide

example : page_offset PageId.INVALID_PAGE_ID = U64_SIZE - PAGE_SIZE := by decide

/-- `allocate_page` returns the pre-increment counter value. -/
theorem allocate_page_fst (d : DiskManager) : (d.allocate_page).1 = ⟨d.next_page_id⟩ := rfl

/-- The post-state counter after one non-wrapping `allocate_page`. -/
theorem allocate_page_snd_next (d : DiskManager) (h : d.next_page_id + 1 < U64_SIZE) :
    (d.allocate_page).2.next_page_id = d.next_page_id + 1 := by
  show (d.next_page_id + 1) % U64_SIZE = d.next_page_id + 1
  exact Nat.mod_eq_of_lt h

/-- While the counter does not wrap, the `i`-th id handed out is the start
counter plus `i`. -/
theorem allocIds_getElem (k : Nat) : ∀ (d : DiskManager) (i : Nat), i < k →
    d.next_page_id + k ≤ U64_SIZE → (allocIds k d)[i]? = some ⟨d.next_page_id + i⟩ := by
  induction k with
  | zero => intro d i hi _; exact absurd hi (Nat.not_lt_zero i)
  | succ k ih =>
    intro d i hi hb
    have heq : allocIds (k + 1) d = (d.allocate_page).1 :: allocIds k (d.allocate_page).2 := rfl
    match i with
    | 0 =>
      rw [heq, List.getElem?_cons_zero]
      rfl
    | Nat.succ j =>
      have h1 : (d.allocate_page).2.next_page_id = d.next_page_id + 1 :=
        allocate_page_snd_next d (by omega)
      have h2 := ih (d.allocate_page).2 j (by omega) (by rw [h1]; omega)
      rw [h1] at h2
      rw [heq, List.getElem?_cons_succ, h2]
      have h3 : d.next_page_id + 1 + j = d.next_page_id + (j + 1) := by omega
      rw [h3]

/-- While the counter does not wrap, `k` allocations advance it by `k`. -/
theorem allocN_next (k : Nat) : ∀ d : DiskManager, d.next_page_id + k < U64_SIZE →
    (allocN k d).next_page_id = d.next_page_id + k := by
  induction k with
  | zero => intro d _; rfl
  | succ k ih =>
    intro d hb
    have h1 : (d.allocate_page).2.next_page_id = d.next_page_id + 1 :=
      allocate_page_snd_next d (by omega)
    show (allocN k (d.allocate_page).2).next_page_id = d.next_page_id + (k + 1)
    rw [ih (d.allocate_page).2 (by rw [h1]; omega), h1]
    omega

/-- C1: every `allocate_page` call returns the current `next_page_id` and
increments the counter by exactly one, so across a sequence of `k` calls on
one `DiskManager` the returned ids are `start, start + 1, ...`: strictly
increasing and never repeating. The hypothesis is that the `k` calls do not
exhaust the 64-bit counter, which the spec notes is unreachable in
practice. -/
theorem allocate_page_monotonic (d : DiskManager) (k : Nat)
    (h : d.next_page_id + k < U64_SIZE) :
    (d.allocate_page).1.to_u64 = d.next_page_id ∧
    (allocN k d).next_page_id = d.next_page_id + k ∧
    (∀ i, i < k → (allocIds k d)[i]? = some ⟨d.next_page_id + i⟩) ∧
    (∀ i j, i < j → j < k →
      ∀ p q : PageId, (allocIds k d)[i]? = some p → (allocIds k d)[j]? = some q →
        p.to_u64 < q.to_u64) := by
  refine ⟨rfl, allocN_next k d h, ?_, ?_⟩
  · intro i hi
    exact allocIds_getElem k d i hi (by omega)
  · intro i j hij hj p q hp hq
    rw [allocIds_getElem k d i (by omega) (by omega), Option.some_inj] at hp
    rw [allocIds_getElem k d j hj (by omega), Option.some_inj] at hq
    rw [← hp, ← hq]
    show d.next_page_id + i < d.next_page_id + j
    omega

/-- Witness for C1: three allocations on a manager opened over an empty
file return ids 0, 1, 2 and leave the counter at 3. -/
theorem allocate_page_monotonic_witness :
    (allocIds 3 (DiskManager.new []))[2]? = some ⟨(DiskManager.new []).next_page_id + 2⟩ ∧
    (allocN 3 (DiskManager.new [])).next_page_id = (DiskManager.new []).next_page_id + 3 :=
  ⟨(allocate_page_monotonic (DiskManager.new []) 3 (by decide)).2.2.1 2 (by decide),
   (allocate_page_monotonic (DiskManager.new []) 3 (by decide)).2.1⟩

/-- C2: in every state reachable by construction over a file followed by
allocations that do not exhaust the 64-bit counter (the spec's "space
exhaustion being unreachable" caveat), `allocate_page` returns an id
strictly below `INVALID_PAGE_ID`, never the sentinel. -/
theorem allocate_page_lt_invalid (f : List Nat) (k : Nat)
    (h : (DiskManager.new f).next_page_id + k < u64_MAX) :
    ((allocN k (DiskManager.new f)).allocate_page).1.to_u64 < PageId.INVALID_PAGE_ID.to_u64 ∧
    ((allocN k (DiskManager.new f)).allocate_page).1 ≠ PageId.INVALID_PAGE_ID := by
  have hmax : u64_MAX < U64_SIZE := by decide
  have h1 : ((allocN k (DiskManager.new f)).allocate_page).1.to_u64 < u64_MAX := by
    show (allocN k (DiskManager.new f)).next_page_id < u64_MAX
    rw [allocN_next k (DiskManager.new f) (by omega)]
    exact h
  refine ⟨h1, fun heq => ?_⟩
  rw [heq] at h1
  exact absurd h1 (Nat.lt_irrefl u64_MAX)

/-- Witness for C2: the first allocation on a manager opened over an empty
file does not return the sentinel. -/
theorem allocate_page_lt_invalid_witness :
    ((allocN 0 (DiskManager.new [])).allocate_page).1 ≠ PageId.INVALID_PAGE_ID :=
  (allocate_page_lt_invalid [] 0 (by decide)).2

/-- C3: `DiskManager::new` (and hence `open`) computes `next_page_id` as the
file length divided by `PAGE_SIZE` with truncating integer division: a file
of length `4096 * k + r` with `r < 4096` yields exactly `k`; a partial
trailing page is not counted. -/
theorem new_next_page_id (f : List Nat) (k r : Nat)
    (hlen : f.length = PAGE_SIZE * k + r) (hr : r < PAGE_SIZE) :
    (DiskManager.new f).next_page_id = k := by
  show f.length / PAGE_SIZE = k
  rw [hlen]
  simp only [PAGE_SIZE] at hr ⊢
  omega

/-- Witness for C3: a file of length `4096 * 2 + 5` opens with
`next_page_id = 2`. -/
theorem new_next_page_id_witness :
    (DiskManager.new (List.replicate 8197 0)).next_page_id = 2 :=
  new_next_page_id (List.replicate 8197 0) 2 5
    (by rw [List.length_replicate]; decide) (by decide)

/-- Encoding is a left inverse of decoding on lists of genuine bytes. -/
theorem to_from_ne_bytes (bs : List Nat) (hb : ∀ b ∈ bs, b < 256) :
    u64_to_ne_bytes bs.length (u64_from_ne_bytes bs) = bs := by
  induction bs with
  | nil => rfl
  | cons b tl ih =>
    have hb0 : b < 256 := hb b (List.mem_cons_self b tl)
    have htl : ∀ x ∈ tl, x < 256 := fun x hx => hb x (List.mem_cons_of_mem b hx)
    show (b + 256 * u64_from_ne_bytes tl) % 256
        :: u64_to_ne_bytes tl.length ((b + 256 * u64_from_ne_bytes tl) / 256) = b :: tl
    have h1 : (b + 256 * u64_from_ne_bytes tl) % 256 = b := by omega
    have h2 : (b + 256 * u64_from_ne_bytes tl) / 256 = u64_from_ne_bytes tl := by omega
    rw [h1, h2, ih htl]

/-- C4: decoding any 8-byte buffer into a `PageId` (native order) and
re-encoding the raw value back to 8 native-order bytes returns the buffer
unchanged. -/
theorem from_bytes_roundtrip (bs : List Nat) (hlen : bs.length = 8)
    (hb : ∀ b ∈ bs, b < 256) :
    ∃ p : PageId, PageId.from_bytes bs = some p ∧ u64_to_ne_bytes 8 p.to_u64 = bs := by
  refine ⟨⟨u64_from_ne_bytes bs⟩, ?_, ?_⟩
  · simp [PageId.from_bytes, hlen]
  · show u64_to_ne_bytes 8 (u64_from_ne_bytes bs) = bs
    rw [← hlen]
    exact to_from_ne_bytes bs hb

/-- Witness for C4 on a concrete 8-byte buffer. -/
theorem from_bytes_roundtrip_witness :
    ∃ p : PageId, PageId.from_bytes [1, 2, 3, 4, 5, 6, 7, 255] = some p ∧
      u64_to_ne_bytes 8 p.to_u64 = [1, 2, 3, 4, 5, 6, 7, 255] :=
  from_bytes_roundtrip [1, 2, 3, 4, 5, 6, 7, 255] (by decide) (by decide)

/-- C5: the default `PageId` and the conversion from "no id" are both the
sentinel; `valid` is `none` exactly on the sentinel and the identity
(wrapped in `some`) on every other id. -/
theorem pageid_default_valid :
    PageId.default = PageId.INVALID_PAGE_ID ∧
    PageId.fromOption none = PageId.INVALID_PAGE_ID ∧
    PageId.INVALID_PAGE_ID.valid = none ∧
    ∀ p : PageId, p ≠ PageId.INVALID_PAGE_ID → p.valid = some p := by
  refine ⟨rfl, rfl, ?_, ?_⟩
  · show (if PageId.INVALID_PAGE_ID = PageId.INVALID_PAGE_ID then none
      else some PageId.INVALID_PAGE_ID) = none
    rw [if_pos rfl]
  · intro p hp
    show (if p = PageId.INVALID_PAGE_ID then none else some p) = some p
    rw [if_neg hp]

/-- Witness for C5: page id 0 is not the sentinel and is its own `valid`. -/
theorem pageid_default_valid_witness : PageId.valid ⟨0⟩ = some ⟨0⟩ :=
  pageid_default_valid.2.2.2 ⟨0⟩ (by decide)

/-- C6: decoding a byte slice into a `PageId` succeeds exactly on slices of
length 8, decoding the full 8 bytes (no truncation or padding); any other
length hits the `unwrap` panic (modelled as `none`). -/
theorem from_bytes_length_contract (bs : List Nat) :
    (bs.length = 8 → PageId.from_bytes bs = some ⟨u64_from_ne_bytes bs⟩) ∧
    (bs.length ≠ 8 → PageId.from_bytes bs = none) := by
  constructor
  · intro h
    simp [PageId.from_bytes, h]
  · intro h
    simp [PageId.from_bytes, h]

/-- Witness for C6: an 8-byte slice decodes, a 3-byte slice panics. -/
theorem from_bytes_length_contract_witness :
    PageId.from_bytes [9, 0, 0, 0, 0, 0, 0, 0] = some ⟨u64_from_ne_bytes [9, 0, 0, 0, 0, 0, 0, 0]⟩ ∧
    PageId.from_bytes [1, 2, 3] = none :=
  ⟨(from_bytes_length_contract [9, 0, 0, 0, 0, 0, 0, 0]).1 (by decide),
   (from_bytes_length_contract [1, 2, 3]).2 (by decide)⟩

/-- The part of a positioned write lying before the written data has length
exactly `offset`. -/
theorem writeAt_prefix_length (file : List Nat) (offset : Nat) :
    (file.take offset ++ List.replicate (offset - file.length) 0).length = offset := by
  simp [List.length_take, List.length_replicate]
  omega

/-- Dropping a `take` helper: if the first part has length `n`, dropping `n`
from the concatenation leaves the second part. -/
theorem drop_append_len (l₁ l₂ : List Nat) (n : Nat) (h : l₁.length = n) :
    (l₁ ++ l₂).drop n = l₂ := by
  subst h
  exact List.drop_left l₁ l₂

/-- Taking a prefix helper: if the first part has length `n`, taking `n`
from the concatenation gives the first part. -/
theorem take_append_len (l₁ l₂ : List Nat) (n : Nat) (h : l₁.length = n) :
    (l₁ ++ l₂).take n = l₁ := by
  subst h
  exact List.take_left l₁ l₂

/-- The file after a positioned write holds exactly the written data at the
offset (vacuously so for an empty write, which leaves the file alone). -/
theorem writeAt_drop (file : List Nat) (offset : Nat) (data : List Nat) :
    (writeAt file offset data).drop offset = data ++ file.drop (offset + data.length) := by
  match data with
  | [] => simp [writeAt]
  | b :: tl =>
    have hw : writeAt file offset (b :: tl)
        = (file.take offset ++ List.replicate (offset - file.length) 0)
          ++ ((b :: tl) ++ file.drop (offset + (b :: tl).length)) := by
      simp [writeAt, List.append_assoc]
    rw [hw]
    exact drop_append_len _ _ offset (writeAt_prefix_length file offset)

/-- A positioned write of a nonempty buffer leaves the file at least
`offset + data.length` bytes long. -/
theorem writeAt_length_ge (file : List Nat) (offset : Nat) (b : Nat) (tl : List Nat) :
    offset + (b :: tl).length ≤ (writeAt file offset (b :: tl)).length := by
  simp [writeAt, List.length_take, List.length_replicate]
  omega

/-- A read of an empty buffer, or one whose byte range lies within the
file, succeeds and returns the bytes at the offset, leaving the manager
unchanged. -/
theorem read_page_data_ok_of_cond (d : DiskManager) (p : PageId) (len : Nat)
    (h : len = 0 ∨ page_offset p + len ≤ d.heap_file.length) :
    d.read_page_data p len = Except.ok ((d.heap_file.drop (page_offset p)).take len, d) := by
  show (if len = 0 ∨ page_offset p + len ≤ d.heap_file.length
    then Except.ok ((d.heap_file.drop (page_offset p)).take len, d)
    else Except.error IoErrorKind.unexpectedEof)
    = Except.ok ((d.heap_file.drop (page_offset p)).take len, d)
  rw [if_pos h]

/-- C7: a successful `write_page_data` of `data` to page `p` followed by a
`read_page_data` of `data.length` bytes from the same page, with no
intervening write, succeeds and returns exactly the written bytes; both
calls address the same `page_offset p`. -/
theorem write_then_read_roundtrip (d : DiskManager) (p : PageId) (data : List Nat) :
    ∃ d' : DiskManager, d.write_page_data p data = Except.ok d' ∧
      ∃ d'' : DiskManager, d'.read_page_data p data.length = Except.ok (data, d'') := by
  refine ⟨{ d with heap_file := writeAt d.heap_file (page_offset p) data }, rfl, ?_⟩
  refine ⟨{ d with heap_file := writeAt d.heap_file (page_offset p) data }, ?_⟩
  have hcond : data.length = 0 ∨
      page_offset p + data.length ≤ (writeAt d.heap_file (page_offset p) data).length := by
    match data with
    | [] => exact Or.inl rfl
    | b :: tl => exact Or.inr (writeAt_length_ge d.heap_file (page_offset p) b tl)
  have hok := read_page_data_ok_of_cond
    { d with heap_file := writeAt d.heap_file (page_offset p) data } p data.length hcond
  rw [hok]
  have hproj : ({ d with heap_file := writeAt d.heap_file (page_offset p) data }
      : DiskManager).heap_file = writeAt d.heap_file (page_offset p) data := rfl
  rw [hproj, writeAt_drop, take_append_len data _ data.length rfl]

/-- A read of a nonempty byte range sticking out past the end of the file
hits the `UnexpectedEof` branch of `read_exact`. -/
theorem read_page_data_error_of_short (d : DiskManager) (p : PageId) (len : Nat)
    (hpos : 0 < len) (h : d.heap_file.length < page_offset p + len) :
    d.read_page_data p len = Except.error IoErrorKind.unexpectedEof := by
  show (if len = 0 ∨ page_offset p + len ≤ d.heap_file.length
    then Except.ok ((d.heap_file.drop (page_offset p)).take len, d)
    else Except.error IoErrorKind.unexpectedEof) = Except.error IoErrorKind.unexpectedEof
  rw [if_neg (by omega)]

/-- Counterexample to C8 as frozen: on an empty file, a read of 0 bytes of
page 1 has its offset (4096) past the end of file, yet succeeds — Rust's
`read_exact` on an empty buffer performs no read and returns `Ok` — instead
of failing with an end-of-file error as the claim asserts. -/
theorem read_past_eof_counterexample :
    (DiskManager.new []).read_page_data ⟨1⟩ 0
      = Except.ok ([], DiskManager.new []) := rfl

/-- C8 (amended: the requested buffer is nonempty): whenever the computed
page offset plus the requested length exceeds the current file length — a
page id past the end of file, or a partially-written final page — a read of
a nonzero number of bytes fails with the end-of-file/truncated-read error.
A zero-length read always succeeds, because `read_exact` on an empty buffer
performs no read. -/
theorem read_past_eof (d : DiskManager) (p : PageId) (len : Nat) (hpos : 0 < len)
    (h : d.heap_file.length < page_offset p + len) :
    d.read_page_data p len = Except.error IoErrorKind.unexpectedEof :=
  read_page_data_error_of_short d p len hpos h

/-- Witness for C8: reading one byte of page 0 from an empty file fails
with the end-of-file error. -/
theorem read_past_eof_witness :
    (DiskManager.new []).read_page_data ⟨0⟩ 1 = Except.error IoErrorKind.unexpectedEof :=
  read_past_eof (DiskManager.new []) ⟨0⟩ 1 (by decide) (by decide)

/-- C9: `allocate_page` never touches the file (and is infallible: it is a
total function into `PageId × DiskManager`); a successful `read_page_data`
changes neither `next_page_id` nor the file; a successful `write_page_data`
never changes `next_page_id`; `sync` succeeds and changes nothing. A failed
read returns only the error (the state is untouched), so retrying is
safe. -/
theorem frame_conditions :
    (∀ d : DiskManager, (d.allocate_page).2.heap_file = d.heap_file) ∧
    (∀ (d : DiskManager) (p : PageId) (len : Nat) (bs : List Nat) (d' : DiskManager),
      d.read_page_data p len = Except.ok (bs, d') →
        d'.next_page_id = d.next_page_id ∧ d'.heap_file = d.heap_file) ∧
    (∀ (d : DiskManager) (p : PageId) (data : List Nat) (d' : DiskManager),
      d.write_page_data p data = Except.ok d' → d'.next_page_id = d.next_page_id) ∧
    (∀ d : DiskManager, d.sync = Except.ok d) := by
  refine ⟨fun d => rfl, ?_, ?_, fun d => rfl⟩
  · intro d p len bs d' h
    by_cases hc : len = 0 ∨ page_offset p + len ≤ d.heap_file.length
    · have h2 : (Except.ok ((d.heap_file.drop (page_offset p)).take len, d)
          : Except IoErrorKind (List Nat × DiskManager)) = Except.ok (bs, d') := by
        rw [← h]
        show Except.ok ((d.heap_file.drop (page_offset p)).take len, d)
          = (if len = 0 ∨ page_offset p + len ≤ d.heap_file.length
            then Except.ok ((d.heap_file.drop (page_offset p)).take len, d)
            else Except.error IoErrorKind.unexpectedEof)
        rw [if_pos hc]
      rw [Except.ok.injEq, Prod.mk.injEq] at h2
      rw [← h2.2]
      exact ⟨rfl, rfl⟩
    · rcases not_or.mp hc with ⟨h1, h2⟩
      have h3 : d.read_page_data p len = Except.error IoErrorKind.unexpectedEof :=
        read_page_data_error_of_short d p len (by omega) (by omega)
      rw [h3] at h
      exact Except.noConfusion h
  · intro d p data d' h
    have h2 : (Except.ok { d with heap_file := writeAt d.heap_file (page_offset p) data }
        : Except IoErrorKind DiskManager) = Except.ok d' := h
    rw [Except.ok.injEq] at h2
    rw [← h2]

/-- Witness for C9: a concrete successful write and a concrete successful
read both leave `next_page_id` at its old value. -/
theorem frame_conditions_witness :
    ((⟨[1, 2], 5⟩ : DiskManager).next_page_id = (⟨[], 5⟩ : DiskManager).next_page_id) ∧
    ((⟨[7], 5⟩ : DiskManager).next_page_id = (⟨[7], 5⟩ : DiskManager).next_page_id ∧
      (⟨[7], 5⟩ : DiskManager).heap_file = (⟨[7], 5⟩ : DiskManager).heap_file) :=
  ⟨frame_conditions.2.2.1 ⟨[], 5⟩ ⟨0⟩ [1, 2] ⟨[1, 2], 5⟩ rfl,
   frame_conditions.2.1 ⟨[7], 5⟩ ⟨0⟩ 1 [7] ⟨[7], 5⟩ rfl⟩

/-- Counterexample to C10's read clause as frozen: at a zero-length buffer
the program does not operate on the wrapped offset at all — reading 0 bytes
at the sentinel id over an empty file succeeds (`read_exact` on an empty
buffer performs no read) instead of failing with an end-of-file error. -/
theorem offset_arith_wraps_counterexample :
    (DiskManager.new []).read_page_data PageId.INVALID_PAGE_ID 0
      = Except.ok ([], DiskManager.new []) := rfl

/-- C10 (amended: the end-of-file failure at the sentinel is asserted only
for reads of a nonzero number of bytes, since `read_exact` on an empty
buffer succeeds unconditionally): the offset computation is unchecked u64
arithmetic. The sentinel maps to the wrapped offset `2 ^ 64 - 4096`; for
any id at or above `2 ^ 52` the multiplication `PAGE_SIZE * id` overflows
u64 and the wrapped offset is strictly smaller than the exact product;
`read_page_data` of a nonzero number of bytes at the sentinel fails with
the ordinary end-of-file error (not a distinct rejection) and
`write_page_data` at the sentinel succeeds, landing the data at the wrapped
offset. -/
theorem offset_arith_wraps :
    page_offset PageId.INVALID_PAGE_ID = U64_SIZE - PAGE_SIZE ∧
    (∀ p : PageId, 2 ^ 52 ≤ p.to_u64 →
      U64_SIZE ≤ PAGE_SIZE * p.to_u64 ∧ page_offset p < PAGE_SIZE * p.to_u64) ∧
    (∀ (d : DiskManager) (len : Nat), 0 < len →
      d.heap_file.length < (U64_SIZE - PAGE_SIZE) + len →
      d.read_page_data PageId.INVALID_PAGE_ID len = Except.error IoErrorKind.unexpectedEof) ∧
    (∀ (d : DiskManager) (data : List Nat), ∃ d' : DiskManager,
      d.write_page_data PageId.INVALID_PAGE_ID data = Except.ok d' ∧
      (d'.heap_file.drop (U64_SIZE - PAGE_SIZE)).take data.length = data) := by
  have h1 : page_offset PageId.INVALID_PAGE_ID = U64_SIZE - PAGE_SIZE := by decide
  refine ⟨h1, ?_, ?_, ?_⟩
  · intro p hp
    simp only [page_offset, PAGE_SIZE, U64_SIZE, PageId.to_u64] at hp ⊢
    omega
  · intro d len hpos h
    apply read_page_data_error_of_short d PageId.INVALID_PAGE_ID len hpos
    rw [h1]
    omega
  · intro d data
    refine ⟨{ d with heap_file := writeAt d.heap_file (page_offset PageId.INVALID_PAGE_ID) data },
      rfl, ?_⟩
    show ((writeAt d.heap_file (page_offset PageId.INVALID_PAGE_ID) data).drop
      (U64_SIZE - PAGE_SIZE)).take data.length = data
    rw [← h1, writeAt_drop]
    exact take_append_len data _ data.length rfl

/-- Witness for C10: the first id past `2 ^ 52` overflows the offset
product, and reading at the sentinel over an empty file gives the
end-of-file error. -/
theorem offset_arith_wraps_witness :
    (U64_SIZE ≤ PAGE_SIZE * PageId.to_u64 ⟨4503599627370496⟩ ∧
      page_offset ⟨4503599627370496⟩ < PAGE_SIZE * PageId.to_u64 ⟨4503599627370496⟩) ∧
    (DiskManager.new []).read_page_data PageId.INVALID_PAGE_ID 1
      = Except.error IoErrorKind.unexpectedEof :=
  ⟨offset_arith_wraps.2.1 ⟨4503599627370496⟩ (by decide),
   offset_arith_wraps.2.2.1 (DiskManager.new []) 1 (by decide) (by decide)⟩

end Shelly
